import Mathlib

/-!
Verification of the SSD1306Func display module (SSD1306Func.cpp) against its
natural-language specification.  The module's three core components are
embedded shallowly:

* ScrollEngine   — `drawVerticalScrollingBitmap`: end-offset resolution and the
  two stepping loops, embedded as a pure function producing the list of
  observable framebuffer operations (draw / present / delay events);
* TextRevealEngine — `drawDialogText` / `drawTimedDialogText`: the
  character-per-tick reveal loops, with the reserved marker character and the
  click-to-confirm (CTC) call sites recorded as events;
* ConfirmGate    — `ctcSerial` / `ctcTimedSerial` / `ctcTimed`: the blocking
  wait loops, embedded as functions over an explicit poll trace (each poll is
  a pair of the serial-available flag and the millisecond clock reading).

Busy loops are embedded with an explicit fuel argument (structural recursion);
the call sites pass a fuel value exceeding the loop's iteration bound, which
in the C code is what guarantees termination (the pan offset strictly
increases each iteration).
-/

/-- Observable operations issued against the display / input collaborators.
`draw x y w h on` is `drawBitmap(x, y, bmp, w, h, color)`; `present` is
`display()`; `delay` is the millisecond wait; `write` / `writeStr` are the
text output calls; `ctcPlain` / `ctcTimedEv` mark an invocation of the
click-to-confirm gate (`ctcSerial`, resp. `ctcTimedSerial` with its timer);
`read` is one `Serial.read()` of a buffered byte; `clearInput` is the
drain-the-buffer loop at gate exit. -/
inductive Ev where
  | draw (x y w h : Int) (isOn : Bool)
  | present
  | delay (ms : Int)
  | write (c : Char)
  | writeStr (s : String)
  | setCursor (x y : Int)
  | setTextColor (c : Nat)
  | read
  | clearInput
  | ctcPlain
  | ctcTimedEv (timerMS : Int)
deriving DecidableEq

/-- The display state visible to a caller: cursor position and text color
(`getCursorX/getCursorY/setCursor/setTextColor` of the Adafruit collaborator). -/
structure DS where
  cx : Int
  cy : Int
  color : Nat
deriving DecidableEq

/-- Effect of one event on the caller-visible display state.  Modelled from
the Adafruit GFX collaborator: a size-1 glyph advances the cursor by 6 px
(the exact advance is irrelevant to the theorems, since every code path that
writes text later repositions the cursor explicitly). -/
def applyEv (d : DS) : Ev → DS
  | Ev.setCursor x y => { d with cx := x, cy := y }
  | Ev.setTextColor c => { d with color := c }
  | Ev.write _ => { d with cx := d.cx + 6 }
  | Ev.writeStr s => { d with cx := d.cx + 6 * s.length }
  | _ => d

/-- Run a list of events over a display state. -/
def runEvs (d : DS) (l : List Ev) : DS := l.foldl applyEv d

/-- `ImageByteArray` from SSD1306Func.h: width and height in pixels.  The
packed pixel bytes never influence the module's control flow, so they are not
carried. -/
structure Image where
  width : Int
  height : Int
deriving DecidableEq

/-- The end-offset resolution of `drawVerticalScrollingBitmap`
(SSD1306Func.cpp, the `Modify end_y values internally` chain):
```
if (scrollstep > 0 && end_y <= 0) end_y = bmp.height;
else if (scrollstep > 0 && end_y + 64 > bmp.height && !allowoverflow) end_y = bmp.height;
else if (scrollstep > 0) end_y += 64;
else if (scrollstep < 0 && end_y + 64 > bmp.height && !allowoverflow) end_y = bmp.height - 64;
else if (scrollstep < 0 && end_y < 0 && !allowoverflow) end_y = 0;
``` -/
def resolveEndY (scrollstep end_y height : Int) (allowoverflow : Bool) : Int :=
  if scrollstep > 0 ∧ end_y ≤ 0 then height
  else if scrollstep > 0 ∧ end_y + 64 > height ∧ allowoverflow = false then height
  else if scrollstep > 0 then end_y + 64
  else if scrollstep < 0 ∧ end_y + 64 > height ∧ allowoverflow = false then height - 64
  else if scrollstep < 0 ∧ end_y < 0 ∧ allowoverflow = false then 0
  else end_y

/-- End-offset resolution as the specification words it (spec §4.1,
`End-offset resolution (must reproduce exactly)`): the downward case analysis
(natural end / clamp / `endMarker + 64`) and the upward case analysis
(clamp-to-`height - 64` / clamp-to-`0` / unchanged). -/
def specEndY (stepPixels endMarker height : Int) (allowOverflow : Bool) : Int :=
  if stepPixels > 0 then
    if endMarker ≤ 0 then height
    else if endMarker + 64 > height ∧ allowOverflow = false then height
    else endMarker + 64
  else
    if endMarker + 64 > height ∧ allowOverflow = false then height - 64
    else if endMarker < 0 ∧ allowOverflow = false then 0
    else endMarker

/-- C1: for every call with `stepPixels ≠ 0`, the absolute end offset computed
by `drawVerticalScrollingBitmap`'s resolution chain coincides with the spec's
case analysis (downward: natural end when `endMarker ≤ 0`, else
`endMarker + 64` clamped to `bitmap.height` when overflow is disallowed;
upward: clamp to `bitmap.height - 64`, else to `0`, else unchanged). -/
theorem resolveEndY_matches_spec (step e h : Int) (a : Bool) (hs : step ≠ 0) :
    resolveEndY step e h a = specEndY step e h a := by
  have h0 : step > 0 ∨ step < 0 := by omega
  unfold resolveEndY specEndY
  cases a <;> rcases h0 with h1 | h1 <;> simp [h1, not_lt_of_gt h1] <;> split_ifs <;> omega

theorem resolveEndY_matches_spec_w :
    (1 : Int) ≠ 0 ∧ resolveEndY 1 10 128 false = specEndY 1 10 128 false :=
  ⟨by decide, resolveEndY_matches_spec 1 10 128 false (by decide)⟩

/-- C2 counterexample: the resolved `endY` is not always within
`[0, bitmap.height]`.  With overflow allowed, downward `endMarker = 100` on a
128-row bitmap resolves to `164 > 128`; with overflow disallowed, upward on a
32-row bitmap (shorter than the 64-px viewport) resolves to `-32 < 0`. -/
theorem resolveEndY_bounds_cex :
    ¬ (0 ≤ resolveEndY 1 100 128 true ∧ resolveEndY 1 100 128 true ≤ 128) ∧
    ¬ (0 ≤ resolveEndY (-1) 0 32 false ∧ resolveEndY (-1) 0 32 false ≤ 32) := by
  decide

/-- C2 (amended): when overflow is disallowed and the bitmap is at least as
tall as the 64-px viewport, the resolved `endY` satisfies
`0 ≤ endY ≤ bitmap.height`, for every `endMarker` and every `stepPixels ≠ 0`. -/
theorem resolveEndY_bounds (step e h : Int) (hs : step ≠ 0) (hh : 64 ≤ h) :
    0 ≤ resolveEndY step e h false ∧ resolveEndY step e h false ≤ h := by
  simp only [resolveEndY, eq_self_iff_true, and_true]
  split_ifs <;> omega

theorem resolveEndY_bounds_w :
    0 ≤ resolveEndY 1 10 128 false ∧ resolveEndY 1 10 128 false ≤ 128 :=
  resolveEndY_bounds 1 10 128 (by decide) (by decide)

/-- The reserved pause-and-confirm marker character (a backquote, code 96). -/
def markerChar : Char := Char.ofNat 96

/-- The CTC call used at a given site: `none` is a plain `ctcSerial` call,
`some t` is `ctcTimedSerial(display, t)`. -/
def mkCtc : Option Int → Ev
  | none => Ev.ctcPlain
  | some t => Ev.ctcTimedEv t

/-- One iteration of the inner `for (int x = 0; x < textspeed; x++)` loop of
the one-by-one branch, over the chunk `dialog[i .. i+textspeed-1]`: each
non-marker character is written; a marker instead presents, waits
`chardelay`, and invokes the CTC gate. -/
def procChunk (cd : Int) (mid : Option Int) : List Char → List Ev
  | [] => []
  | c :: rest =>
    (if c ≠ markerChar then [Ev.write c]
     else [Ev.present, Ev.delay cd, mkCtc mid]) ++ procChunk cd mid rest

/-- The trailing `while (i < size)` loop of the one-by-one branch: each
remaining non-marker character is written, presented and followed by a
`chardelay` wait; a marker only invokes the CTC gate. -/
def trailLoop (cd : Int) (mid : Option Int) : List Char → List Ev
  | [] => []
  | c :: rest =>
    (if c ≠ markerChar then [Ev.write c, Ev.present, Ev.delay cd]
     else [mkCtc mid]) ++ trailLoop cd mid rest

/-- The main `while (i + textspeed < size)` loop of the one-by-one branch:
process a chunk of `textspeed` characters, present, wait `chardelay`, advance.
On exit the trailing loop handles the remaining characters.  Fuel bounds the
iteration count; the C loop terminates because `i` strictly increases by
`textspeed ≥ 1` (the normalization to `textspeed = 1` rules out 0), and call
sites pass fuel of at least the dialog length. -/
def obLoop (cd : Int) (mid : Option Int) (ts : Nat) : Nat → List Char → List Ev
  | 0, s => trailLoop cd mid s
  | fuel + 1, s =>
    if ts < s.length then
      procChunk cd mid (s.take ts) ++ [Ev.present, Ev.delay cd] ++
        obLoop cd mid ts fuel (s.drop ts)
    else trailLoop cd mid s

/-- The body-rendering part of the dialog functions: one-by-one animation, or
the instant branch (`write(dialog); display(); delay(1);`). -/
def dialogBody (ts : Nat) (cd : Int) (onebyone : Bool) (mid : Option Int)
    (dialog : String) : List Ev :=
  if onebyone then obLoop cd mid ts dialog.length dialog.data
  else [Ev.writeStr dialog, Ev.present, Ev.delay 1]

/-- `drawDialogText(display, textspeed, chardelay, headerdelay, onebyone,
headertext, dialog)`: normalize the sentinel parameters, draw the header,
wait, position the body cursor, render the body, and invoke one closing
`ctcSerial`.  `textspeed` is a C `uint8_t`, hence a `Nat`. -/
def drawDialogText (textspeed : Nat) (chardelay headerdelay : Int)
    (onebyone : Bool) (headertext dialog : String) : List Ev :=
  let ts := if textspeed ≤ 0 then 1 else textspeed
  let cd := if chardelay < 0 then 10 else chardelay
  let hd := if headerdelay < 0 then 200 else headerdelay
  [Ev.setCursor 0 0, Ev.writeStr headertext, Ev.present, Ev.delay hd,
   Ev.setCursor 0 16]
  ++ dialogBody ts cd onebyone none dialog
  ++ [Ev.ctcPlain]

/-- `drawTimedDialogText(display, textspeed, chardelay, headerdelay, timer,
timedinput, timedend, onebyone, headertext, dialog)`: as `drawDialogText`,
but mid-dialog CTC sites use `ctcTimedSerial(display, timer)` when
`timedinput` is set, and the closing site uses it when `timedend` is set. -/
def drawTimedDialogText (textspeed : Nat) (chardelay headerdelay timer : Int)
    (timedinput timedend onebyone : Bool) (headertext dialog : String) :
    List Ev :=
  let ts := if textspeed ≤ 0 then 1 else textspeed
  let cd := if chardelay < 0 then 10 else chardelay
  let hd := if headerdelay < 0 then 200 else headerdelay
  let tm := if timer < 0 then 10000 else timer
  [Ev.setCursor 0 0, Ev.writeStr headertext, Ev.present, Ev.delay hd,
   Ev.setCursor 0 16]
  ++ dialogBody ts cd onebyone (if timedinput then some tm else none) dialog
  ++ [mkCtc (if timedend then some tm else none)]

/-- Is this event an invocation of the CTC gate? -/
def isCtcEv : Ev → Bool
  | Ev.ctcPlain => true
  | Ev.ctcTimedEv _ => true
  | _ => false

/-- Number of CTC gate invocations in a trace. -/
def ctcCount : List Ev → Nat
  | [] => 0
  | e :: rest => (if isCtcEv e then 1 else 0) + ctcCount rest

/-- Characters a trace writes to the display, in order. -/
def evChars : Ev → List Char
  | Ev.write c => [c]
  | Ev.writeStr s => s.data
  | _ => []

/-- All characters written by a trace, in order. -/
def writtenChars : List Ev → List Char
  | [] => []
  | e :: rest => evChars e ++ writtenChars rest

theorem ctcCount_append (a b : List Ev) :
    ctcCount (a ++ b) = ctcCount a + ctcCount b := by
  induction a with
  | nil => simp [ctcCount]
  | cons e r ih => simp [ctcCount, ih]; omega

theorem writtenChars_append (a b : List Ev) :
    writtenChars (a ++ b) = writtenChars a ++ writtenChars b := by
  induction a with
  | nil => simp [writtenChars]
  | cons e r ih => simp [writtenChars, ih]

theorem isCtcEv_mkCtc (mid : Option Int) : isCtcEv (mkCtc mid) = true := by
  cases mid <;> rfl

theorem evChars_mkCtc (mid : Option Int) : evChars (mkCtc mid) = [] := by
  cases mid <;> rfl

theorem procChunk_count (cd : Int) (mid : Option Int) :
    ∀ chunk : List Char,
      ctcCount (procChunk cd mid chunk) = chunk.count markerChar := by
  intro chunk
  induction chunk with
  | nil => simp [procChunk, ctcCount]
  | cons c rest ih =>
    by_cases hc : c = markerChar <;> cases mid <;>
      simp [procChunk, hc, ctcCount_append, ctcCount, isCtcEv, mkCtc,
        ih, List.count_cons] <;> omega

theorem trailLoop_count (cd : Int) (mid : Option Int) :
    ∀ s : List Char, ctcCount (trailLoop cd mid s) = s.count markerChar := by
  intro s
  induction s with
  | nil => simp [trailLoop, ctcCount]
  | cons c rest ih =>
    by_cases hc : c = markerChar <;> cases mid <;>
      simp [trailLoop, hc, ctcCount_append, ctcCount, isCtcEv, mkCtc,
        ih, List.count_cons] <;> omega

theorem procChunk_chars (cd : Int) (mid : Option Int) :
    ∀ chunk : List Char,
      writtenChars (procChunk cd mid chunk)
        = chunk.filter (fun c => c ≠ markerChar) := by
  intro chunk
  induction chunk with
  | nil => simp [procChunk, writtenChars]
  | cons c rest ih =>
    by_cases hc : c = markerChar <;> cases mid <;>
      simp [procChunk, hc, writtenChars_append, writtenChars, evChars,
        mkCtc, ih]

theorem trailLoop_chars (cd : Int) (mid : Option Int) :
    ∀ s : List Char,
      writtenChars (trailLoop cd mid s)
        = s.filter (fun c => c ≠ markerChar) := by
  intro s
  induction s with
  | nil => simp [trailLoop, writtenChars]
  | cons c rest ih =>
    by_cases hc : c = markerChar <;> cases mid <;>
      simp [trailLoop, hc, writtenChars_append, writtenChars, evChars,
        mkCtc, ih]

theorem obLoop_count (cd : Int) (mid : Option Int) (ts : Nat) (hts : 1 ≤ ts) :
    ∀ fuel s, s.length ≤ fuel →
      ctcCount (obLoop cd mid ts fuel s) = s.count markerChar := by
  intro fuel
  induction fuel with
  | zero =>
    intro s hs
    have hnil : s = [] := by cases s <;> simp_all
    subst hnil
    simp [obLoop, trailLoop, ctcCount]
  | succ n ih =>
    intro s hs
    by_cases h : ts < s.length
    · have hlen : (s.drop ts).length ≤ n := by
        simp only [List.length_drop]; omega
      rw [show obLoop cd mid ts (n + 1) s
            = procChunk cd mid (s.take ts) ++ [Ev.present, Ev.delay cd] ++
              obLoop cd mid ts n (s.drop ts) from by rw [obLoop]; simp [h]]
      rw [ctcCount_append, ctcCount_append, procChunk_count,
        ih (s.drop ts) hlen]
      have := List.take_append_drop ts s
      conv_rhs => rw [← this]
      rw [List.count_append]
      simp [ctcCount, isCtcEv]
    · rw [show obLoop cd mid ts (n + 1) s = trailLoop cd mid s from by
        rw [obLoop]; simp [h]]
      exact trailLoop_count cd mid s

theorem obLoop_chars (cd : Int) (mid : Option Int) (ts : Nat) (hts : 1 ≤ ts) :
    ∀ fuel s, s.length ≤ fuel →
      writtenChars (obLoop cd mid ts fuel s)
        = s.filter (fun c => c ≠ markerChar) := by
  intro fuel
  induction fuel with
  | zero =>
    intro s hs
    have hnil : s = [] := by cases s <;> simp_all
    subst hnil
    simp [obLoop, trailLoop, writtenChars]
  | succ n ih =>
    intro s hs
    by_cases h : ts < s.length
    · have hlen : (s.drop ts).length ≤ n := by
        simp only [List.length_drop]; omega
      rw [show obLoop cd mid ts (n + 1) s
            = procChunk cd mid (s.take ts) ++ [Ev.present, Ev.delay cd] ++
              obLoop cd mid ts n (s.drop ts) from by rw [obLoop]; simp [h]]
      rw [writtenChars_append, writtenChars_append, procChunk_chars,
        ih (s.drop ts) hlen]
      have := List.take_append_drop ts s
      conv_rhs => rw [← this]
      rw [List.filter_append]
      simp [writtenChars, evChars]
    · rw [show obLoop cd mid ts (n + 1) s = trailLoop cd mid s from by
        rw [obLoop]; simp [h]]
      exact trailLoop_chars cd mid s

theorem one_le_normSpeed (ts : Nat) : 1 ≤ (if ts ≤ 0 then 1 else ts) := by
  by_cases h : ts ≤ 0 <;> simp [h] <;> omega

theorem data_length_le_length (s : String) : s.data.length ≤ s.length :=
  le_of_eq rfl

/-- C3 counterexample: in instant mode (`onebyone = false`) with a
marker-bearing body `a`b` (k = 1), the gate is invoked once — not k + 1 = 2 —
and the body is written verbatim, marker included. -/
theorem dialog_instant_mode_cex :
    ctcCount (drawDialogText 1 1 1 false "N" "a`b") = 1 ∧
    ("a`b".data.count markerChar + 1 = 2) ∧
    writtenChars (drawDialogText 1 1 1 false "N" "a`b")
      = "N".data ++ "a`b".data ∧
    markerChar ∈ writtenChars (drawDialogText 1 1 1 false "N" "a`b") := by
  decide

/-- C3 (amended): in one-by-one mode, for every body with k marker
occurrences, `drawDialogText` and `drawTimedDialogText` invoke the CTC gate
exactly k + 1 times (k mid-dialog — the body part alone contributes k — plus
one at end of dialog), and the characters written are the header followed by
the body with all markers removed, in original order; in particular the body
`Hello`World` with `onebyone` and `charsPerTick = 1` shows `HelloWorld` and
invokes the gate exactly twice.  (In instant mode the gate fires once and the
body is written verbatim.) -/
theorem dialog_marker_count :
    (∀ (ts : Nat) (cd hd : Int) (ht d : String),
        ctcCount (drawDialogText ts cd hd true ht d)
          = d.data.count markerChar + 1 ∧
        writtenChars (drawDialogText ts cd hd true ht d)
          = ht.data ++ d.data.filter (fun c => c ≠ markerChar)) ∧
    (∀ (ts : Nat) (cd hd tm : Int) (ti te : Bool) (ht d : String),
        ctcCount (drawTimedDialogText ts cd hd tm ti te true ht d)
          = d.data.count markerChar + 1 ∧
        writtenChars (drawTimedDialogText ts cd hd tm ti te true ht d)
          = ht.data ++ d.data.filter (fun c => c ≠ markerChar)) ∧
    (∀ (ts : Nat) (cd : Int) (mid : Option Int) (d : String),
        ctcCount (dialogBody (ts + 1) cd true mid d)
          = d.data.count markerChar) ∧
    ctcCount (drawDialogText 1 1 1 true "N" "Hello`World") = 2 ∧
    writtenChars (drawDialogText 1 1 1 true "N" "Hello`World")
      = "N".data ++ "HelloWorld".data := by
  have hbody : ∀ (ts : Nat) (cd : Int) (mid : Option Int) (d : String),
      1 ≤ ts → ctcCount (dialogBody ts cd true mid d)
        = d.data.count markerChar := by
    intro ts cd mid d hts
    simp only [dialogBody, if_pos rfl]
    exact obLoop_count cd mid ts hts d.length d.data (data_length_le_length d)
  have hchars : ∀ (ts : Nat) (cd : Int) (mid : Option Int) (d : String),
      1 ≤ ts → writtenChars (dialogBody ts cd true mid d)
        = d.data.filter (fun c => c ≠ markerChar) := by
    intro ts cd mid d hts
    simp only [dialogBody, if_pos rfl]
    exact obLoop_chars cd mid ts hts d.length d.data (data_length_le_length d)
  have hc1 : ∀ mid : Option Int, ctcCount [mkCtc mid] = 1 := by
    intro mid; cases mid <;> rfl
  have hw1 : ∀ mid : Option Int, writtenChars [mkCtc mid] = [] := by
    intro mid; cases mid <;> rfl
  refine ⟨?_, ?_, ?_, by decide, by decide⟩
  · intro ts cd hd ht d
    have h1 := one_le_normSpeed ts
    refine ⟨?_, ?_⟩
    · simp only [drawDialogText]
      rw [ctcCount_append, ctcCount_append, hbody _ _ _ d h1]
      simp [ctcCount, isCtcEv]
    · simp only [drawDialogText]
      rw [writtenChars_append, writtenChars_append, hchars _ _ _ d h1]
      simp [writtenChars, evChars]
  · intro ts cd hd tm ti te ht d
    have h1 := one_le_normSpeed ts
    refine ⟨?_, ?_⟩
    · simp only [drawTimedDialogText]
      rw [ctcCount_append, ctcCount_append, hbody _ _ _ d h1, hc1]
      simp [ctcCount, isCtcEv]
    · simp only [drawTimedDialogText]
      rw [writtenChars_append, writtenChars_append, hchars _ _ _ d h1, hw1]
      simp [writtenChars, evChars]
  · intro ts cd mid d
    exact hbody (ts + 1) cd mid d (by omega)

theorem procChunk_append (cd : Int) (mid : Option Int) (a b : List Char) :
    procChunk cd mid (a ++ b) = procChunk cd mid a ++ procChunk cd mid b := by
  induction a with
  | nil => simp [procChunk]
  | cons c rest ih => simp [procChunk, ih]

theorem trailLoop_append (cd : Int) (mid : Option Int) (a b : List Char) :
    trailLoop cd mid (a ++ b) = trailLoop cd mid a ++ trailLoop cd mid b := by
  induction a with
  | nil => simp [trailLoop]
  | cons c rest ih => simp [trailLoop, ih]

theorem procChunk_no_marker_write (cd : Int) (mid : Option Int) :
    ∀ chunk : List Char, Ev.write markerChar ∉ procChunk cd mid chunk := by
  intro chunk
  induction chunk with
  | nil => simp [procChunk]
  | cons c rest ih =>
    by_cases hc : c = markerChar <;> cases mid <;>
      simp_all [procChunk, mkCtc] <;> exact fun h2 => hc h2.symm

theorem trailLoop_no_marker_write (cd : Int) (mid : Option Int) :
    ∀ s : List Char, Ev.write markerChar ∉ trailLoop cd mid s := by
  intro s
  induction s with
  | nil => simp [trailLoop]
  | cons c rest ih =>
    by_cases hc : c = markerChar <;> cases mid <;>
      simp_all [trailLoop, mkCtc] <;> exact fun h2 => hc h2.symm

theorem obLoop_no_marker_write (cd : Int) (mid : Option Int) (ts : Nat) :
    ∀ fuel s, Ev.write markerChar ∉ obLoop cd mid ts fuel s := by
  intro fuel
  induction fuel with
  | zero => intro s; simp [obLoop]; exact trailLoop_no_marker_write cd mid s
  | succ n ih =>
    intro s
    by_cases h : ts < s.length
    · rw [show obLoop cd mid ts (n + 1) s
          = procChunk cd mid (s.take ts) ++ [Ev.present, Ev.delay cd] ++
            obLoop cd mid ts n (s.drop ts) from by rw [obLoop]; simp [h]]
      simp only [List.mem_append, List.mem_cons]
      push_neg
      exact ⟨⟨procChunk_no_marker_write cd mid _, by simp⟩, ih _⟩
    · rw [show obLoop cd mid ts (n + 1) s = trailLoop cd mid s from by
        rw [obLoop]; simp [h]]
      exact trailLoop_no_marker_write cd mid s

/-- C8 counterexample: a marker in the final partial tick (handled by the
trailing `while (i < size)` loop) does not trigger a present or a
`chardelay` wait: with body consistingentirely of one marker, the whole
trace is the header phase followed by two bare gate invocations — no present
and no `delay 5` (the per-tick delay) occurs between them. -/
theorem marker_trailing_cex :
    drawDialogText 1 5 7 true "" "`"
      = [Ev.setCursor 0 0, Ev.writeStr "", Ev.present, Ev.delay 7,
         Ev.setCursor 0 16, Ev.ctcPlain, Ev.ctcPlain] ∧
    Ev.delay 5 ∉ drawDialogText 1 5 7 true "" "`" := by
  decide

/-- C8 (amended): in one-by-one mode the marker character is never written as
a glyph, for every body and every marker position; a marker processed inside
the main tick loop contributes exactly `present, delay chardelay, CTC` and
emission resumes with the following character; a marker processed by the
trailing loop (the final partial tick) contributes only the CTC invocation,
with no present and no delay of its own. -/
theorem marker_semantics :
    (∀ (ts : Nat) (cd hd : Int) (ht d : String),
        Ev.write markerChar ∉ drawDialogText ts cd hd true ht d) ∧
    (∀ (cd : Int) (mid : Option Int) (pre post : List Char),
        procChunk cd mid (pre ++ markerChar :: post)
          = procChunk cd mid pre ++
            [Ev.present, Ev.delay cd, mkCtc mid] ++ procChunk cd mid post) ∧
    (∀ (cd : Int) (mid : Option Int) (pre post : List Char),
        trailLoop cd mid (pre ++ markerChar :: post)
          = trailLoop cd mid pre ++ mkCtc mid :: trailLoop cd mid post) := by
  refine ⟨?_, ?_, ?_⟩
  · intro ts cd hd ht d
    simp only [drawDialogText, dialogBody, if_pos rfl, List.mem_append,
      List.mem_cons]
    push_neg
    refine ⟨⟨by simp, ?_⟩, by simp⟩
    exact obLoop_no_marker_write _ _ _ _ _
  · intro cd mid pre post
    rw [procChunk_append]
    simp [procChunk]
  · intro cd mid pre post
    rw [trailLoop_append]
    simp [trailLoop]

/-- The indicator redraw performed inside the wait loop each time 500 ms have
elapsed since the last toggle: `setCursor(116, 0); setTextColor(color);
write(">>"); display();`. -/
def ctcIndicator (color : Bool) : List Ev :=
  [Ev.setCursor 116 0, Ev.setTextColor (if color then 1 else 0),
   Ev.writeStr ">>", Ev.present]

/-- The exit sequence of every CTC function: force the indicator glyph off,
present, drain any residual serial input, and restore the saved cursor while
setting the text color to 1:
`setCursor(116,0); setTextColor(0); write(">>"); display();
while (Serial.available()) Serial.read(); setCursor(baseX, baseY);
setTextColor(1);`. -/
def ctcExit (d : DS) : List Ev :=
  [Ev.setCursor 116 0, Ev.setTextColor 0, Ev.writeStr ">>", Ev.present,
   Ev.clearInput, Ev.setCursor d.cx d.cy, Ev.setTextColor 1]

/-- The `while(!Serial.available())` wait loop of `ctcSerial`, driven by a
poll trace: each element is the pair (`Serial.available()` at the loop
condition, `millis()` read in the body).  Result: the indicator events
emitted, and whether an input event was observed within the trace (`false`
means the busy loop was still spinning when the observation window ended —
the loop has no other way to terminate). -/
def ctcSerialLoop (prev : Nat) (color : Bool) :
    List (Bool × Nat) → List Ev × Bool
  | [] => ([], false)
  | (avail, now) :: rest =>
    if avail then ([], true)
    else if (now : Int) - (prev : Int) > 500 then
      let r := ctcSerialLoop now (!color) rest
      (ctcIndicator (!color) ++ r.1, r.2)
    else ctcSerialLoop prev color rest

/-- `ctcSerial(display)`: save the cursor, drain the `pending` bytes already
queued (`while (Serial.available()) Serial.read()`), record the start time,
run the wait loop, and on exit run the exit sequence.  The second component
records whether the wait loop observed an input event within the trace. -/
def ctcSerial (d : DS) (pending : Nat) (start : Nat)
    (trace : List (Bool × Nat)) : List Ev × Bool :=
  let r := ctcSerialLoop start false trace
  (List.replicate pending Ev.read ++ r.1 ++ (if r.2 then ctcExit d else []),
   r.2)

/-- The `while(!Serial.available() && now - basetime < timerMS)` wait loop of
`ctcTimedSerial`.  `now` holds the millis value read in the previous
iteration (the loop condition tests it before the body refreshes it). -/
def ctcTimedSerialLoop (basetime : Nat) (timerMS : Int) (prev now : Nat)
    (color : Bool) : List (Bool × Nat) → List Ev × Bool
  | [] => ([], false)
  | (avail, t) :: rest =>
    if avail then ([], true)
    else if (now : Int) - (basetime : Int) < timerMS then
      if (t : Int) - (prev : Int) > 500 then
        let r := ctcTimedSerialLoop basetime timerMS t t (!color) rest
        (ctcIndicator (!color) ++ r.1, r.2)
      else ctcTimedSerialLoop basetime timerMS prev t color rest
    else ([], true)

/-- `ctcTimedSerial(display, timerMS)`: as `ctcSerial`, but the wait loop also
exits when the timer elapses.  The three consecutive `millis()` reads that
initialize `basetime`, `prev` and `now` are modelled as the single instant
`start`. -/
def ctcTimedSerial (d : DS) (timerMS : Int) (pending : Nat) (start : Nat)
    (trace : List (Bool × Nat)) : List Ev × Bool :=
  let r := ctcTimedSerialLoop start timerMS start start false trace
  (List.replicate pending Ev.read ++ r.1 ++ (if r.2 then ctcExit d else []),
   r.2)

/-- The wait loop of the experimental GPIO variant `ctcTimed` — identical
source text to `ctcTimedSerialLoop`: it tests `Serial.available()`, not the
button pin. -/
def ctcTimedLoop (basetime : Nat) (timerMS : Int) (prev now : Nat)
    (color : Bool) : List (Bool × Nat) → List Ev × Bool
  | [] => ([], false)
  | (avail, t) :: rest =>
    if avail then ([], true)
    else if (now : Int) - (basetime : Int) < timerMS then
      if (t : Int) - (prev : Int) > 500 then
        let r := ctcTimedLoop basetime timerMS t t (!color) rest
        (ctcIndicator (!color) ++ r.1, r.2)
      else ctcTimedLoop basetime timerMS prev t color rest
    else ([], true)

/-- `ctcTimed(display, button, timerMS)`: the experimental GPIO-input CTC.
Its body is identical to `ctcTimedSerial` — the `button` parameter is never
read; every poll is of the serial input source. -/
def ctcTimed (d : DS) (button : Nat) (timerMS : Int) (pending : Nat)
    (start : Nat) (trace : List (Bool × Nat)) : List Ev × Bool :=
  let r := ctcTimedLoop start timerMS start start false trace
  (List.replicate pending Ev.read ++ r.1 ++ (if r.2 then ctcExit d else []),
   r.2)

theorem runEvs_append (s : DS) (a b : List Ev) :
    runEvs s (a ++ b) = runEvs (runEvs s a) b := by
  simp [runEvs, List.foldl_append]

theorem runEvs_ctcExit (s d : DS) : runEvs s (ctcExit d) = ⟨d.cx, d.cy, 1⟩ := by
  simp [runEvs, ctcExit, applyEv]

/-- C4 counterexample: with one input event already queued (`pending = 1`) and
no further input arriving, `ctcSerial` discards the queued event at entry and
keeps spinning — over a window in which 501 ms elapse it toggles the
indicator on (a `setTextColor 1` followed by the `>>` glyph) and has not
returned. -/
theorem ctcSerial_prequeued_cex :
    (ctcSerial ⟨0, 0, 1⟩ 1 0 [(false, 501), (false, 502)]).2 = false ∧
    Ev.setTextColor 1 ∈ (ctcSerial ⟨0, 0, 1⟩ 1 0 [(false, 501), (false, 502)]).1 := by
  decide

/-- C4 (amended): `ctcSerial` discards any input queued before entry; it
returns promptly — with no indicator activity at all, only the forced-off
exit sequence — precisely when a fresh input event is observed at the first
poll of the wait loop. -/
theorem ctcSerial_prompt_on_first_poll (d : DS) (pending : Nat) (start : Nat)
    (t : Nat) (rest : List (Bool × Nat)) :
    ctcSerial d pending start ((true, t) :: rest)
      = (List.replicate pending Ev.read ++ ctcExit d, true) := by
  simp [ctcSerial, ctcSerialLoop]

/-- C5 counterexample: a caller whose text color is 0 does not get it back:
`ctcSerial` returns with the cursor restored but the text color forced to 1,
so the prior display state `(3, 9, color 0)` is not restored. -/
theorem ctcSerial_color_not_restored_cex :
    (ctcSerial ⟨3, 9, 0⟩ 0 0 [(true, 0)]).2 = true ∧
    runEvs ⟨3, 9, 0⟩ (ctcSerial ⟨3, 9, 0⟩ 0 0 [(true, 0)]).1 ≠ ⟨3, 9, 0⟩ := by
  decide

/-- C5 (amended): whenever `ctcSerial` or `ctcTimedSerial` returns, the
caller's prior cursor position is restored, and the text color is set to 1
(`setTextColor(1)`) unconditionally — the prior color is not saved, so only a
caller whose color was already 1 sees it "restored". -/
theorem ctc_restores_cursor_forces_color :
    (∀ (d : DS) (pending start : Nat) (trace : List (Bool × Nat)),
        (ctcSerial d pending start trace).2 = true →
        runEvs d (ctcSerial d pending start trace).1 = ⟨d.cx, d.cy, 1⟩) ∧
    (∀ (d : DS) (timerMS : Int) (pending start : Nat)
        (trace : List (Bool × Nat)),
        (ctcTimedSerial d timerMS pending start trace).2 = true →
        runEvs d (ctcTimedSerial d timerMS pending start trace).1
          = ⟨d.cx, d.cy, 1⟩) := by
  constructor
  · intro d pending start trace h
    rcases hr : ctcSerialLoop start false trace with ⟨l, b⟩
    have he : ctcSerial d pending start trace
        = (List.replicate pending Ev.read ++ l ++
            (if b then ctcExit d else []), b) := by
      simp [ctcSerial, hr]
    rw [he] at h ⊢
    dsimp only at h ⊢
    subst h
    rw [if_pos rfl, runEvs_append, runEvs_append, runEvs_ctcExit]
  · intro d timerMS pending start trace h
    rcases hr : ctcTimedSerialLoop start timerMS start start false trace
      with ⟨l, b⟩
    have he : ctcTimedSerial d timerMS pending start trace
        = (List.replicate pending Ev.read ++ l ++
            (if b then ctcExit d else []), b) := by
      simp [ctcTimedSerial, hr]
    rw [he] at h ⊢
    dsimp only at h ⊢
    subst h
    rw [if_pos rfl, runEvs_append, runEvs_append, runEvs_ctcExit]

theorem ctc_restores_cursor_forces_color_w :
    ((ctcSerial ⟨2, 4, 1⟩ 0 0 [(true, 0)]).2 = true ∧
      runEvs ⟨2, 4, 1⟩ (ctcSerial ⟨2, 4, 1⟩ 0 0 [(true, 0)]).1 = ⟨2, 4, 1⟩) ∧
    ((ctcTimedSerial ⟨2, 4, 1⟩ 100 0 0 [(true, 0)]).2 = true ∧
      runEvs ⟨2, 4, 1⟩ (ctcTimedSerial ⟨2, 4, 1⟩ 100 0 0 [(true, 0)]).1
        = ⟨2, 4, 1⟩) :=
  ⟨⟨by decide,
    ctc_restores_cursor_forces_color.1 ⟨2, 4, 1⟩ 0 0 [(true, 0)] (by decide)⟩,
   ⟨by decide,
    ctc_restores_cursor_forces_color.2 ⟨2, 4, 1⟩ 100 0 0 [(true, 0)]
      (by decide)⟩⟩

theorem ctcTimedLoop_eq (basetime : Nat) (timerMS : Int) :
    ∀ (trace : List (Bool × Nat)) (prev now : Nat) (color : Bool),
      ctcTimedLoop basetime timerMS prev now color trace
        = ctcTimedSerialLoop basetime timerMS prev now color trace := by
  intro trace
  induction trace with
  | nil => intro prev now color; rfl
  | cons p rest ih =>
    intro prev now color
    cases p with
    | mk avail t => simp [ctcTimedLoop, ctcTimedSerialLoop, ih]

/-- C10: the GPIO-timed gate `ctcTimed` never reads its `button` parameter —
for every display state, timeout, button value, queued-input count, start
time and serial poll trace it performs exactly the same sequence of
observable operations (and returns the same way) as
`ctcTimedSerial(display, timerMS)`: it polls the serial input source. -/
theorem ctcTimed_ignores_button (d : DS) (button : Nat) (timerMS : Int)
    (pending start : Nat) (trace : List (Bool × Nat)) :
    ctcTimed d button timerMS pending start trace
      = ctcTimedSerial d timerMS pending start trace := by
  simp [ctcTimed, ctcTimedSerial, ctcTimedLoop_eq]

/-- The downward stepping loop of `drawVerticalScrollingBitmap`
(`if (scrollstep > 0)` branch):
```
int height = 0;
while (height + 64 - offset_y < end_y) {
  drawBitmap(offset_x, -height + offset_y, ..., OFF);
  if (height + 64 - offset_y + scrollstep < end_y) height += scrollstep;
  else if (height + 64 - offset_y < end_y && !snaptoend) height++;
  else break;
  drawBitmap(offset_x, -height + offset_y, ..., ON);
  display(); delay(scrolldelay);
}
```
Fuel bounds the iteration count; the loop terminates because `height`
strictly increases (by `scrollstep ≥ 1` or by 1) while bounded by
`end_y - 64 + offset_y`, and the call site passes fuel exceeding that bound. -/
def downLoop (sd step : Int) (snap : Bool) (ox oy ey : Int) (bmp : Image) :
    Nat → Int → List Ev
  | 0, _ => []
  | fuel + 1, height =>
    if height + 64 - oy < ey then
      Ev.draw ox (-height + oy) bmp.width bmp.height false ::
      (if height + 64 - oy + step < ey then
        Ev.draw ox (-(height + step) + oy) bmp.width bmp.height true ::
        Ev.present :: Ev.delay sd ::
        downLoop sd step snap ox oy ey bmp fuel (height + step)
      else if height + 64 - oy < ey ∧ snap = false then
        Ev.draw ox (-(height + 1) + oy) bmp.width bmp.height true ::
        Ev.present :: Ev.delay sd ::
        downLoop sd step snap ox oy ey bmp fuel (height + 1)
      else [])
    else []

/-- The upward stepping loop (`else if (scrollstep < 0)` branch):
```
int height = offset_y;
while (height < -end_y) {
  drawBitmap(offset_x, height, ..., OFF);
  if (height - scrollstep <= -end_y) height -= scrollstep;
  else if (height <= -end_y && !snaptoend) height++;
  else break;
  drawBitmap(offset_x, height, ..., ON);
  display(); delay(scrolldelay);
}
``` -/
def upLoop (sd step : Int) (snap : Bool) (ox ey : Int) (bmp : Image) :
    Nat → Int → List Ev
  | 0, _ => []
  | fuel + 1, height =>
    if height < -ey then
      Ev.draw ox height bmp.width bmp.height false ::
      (if height - step ≤ -ey then
        Ev.draw ox (height - step) bmp.width bmp.height true ::
        Ev.present :: Ev.delay sd ::
        upLoop sd step snap ox ey bmp fuel (height - step)
      else if height ≤ -ey ∧ snap = false then
        Ev.draw ox (height + 1) bmp.width bmp.height true ::
        Ev.present :: Ev.delay sd ::
        upLoop sd step snap ox ey bmp fuel (height + 1)
      else [])
    else []

/-- `drawVerticalScrollingBitmap(display, initialdelay, enddelay, scrolldelay,
scrollstep, snaptoend, allowoverflow, offset_x, offset_y, end_y, bmp)`:
normalize the sentinel delays, resolve the absolute end offset, draw the
bitmap and hold `initialdelay`, then run the stepping loop for the sign of
`scrollstep`, and finish with one final frame at the resolved end offset
followed by an `enddelay` hold.  With `scrollstep = 0` neither branch runs. -/
def scrollTrace (initialdelay enddelay scrolldelay scrollstep : Int)
    (snaptoend allowoverflow : Bool) (ox oy end_y : Int) (bmp : Image) :
    List Ev :=
  let idel := if initialdelay < 0 then 500 else initialdelay
  let edel := if enddelay < 0 then 500 else enddelay
  let sdel := if scrolldelay < 0 then 5 else scrolldelay
  let ey := resolveEndY scrollstep end_y bmp.height allowoverflow
  Ev.draw ox oy bmp.width bmp.height true :: Ev.present :: Ev.delay idel ::
  (if scrollstep > 0 then
    downLoop sdel scrollstep snaptoend ox oy ey bmp
      ((ey - 64 + oy).toNat + 1) 0
    ++ [Ev.draw ox (-(ey - 64)) bmp.width bmp.height true, Ev.present,
        Ev.delay edel]
  else if scrollstep < 0 then
    upLoop sdel scrollstep snaptoend ox ey bmp ((-ey - oy).toNat + 1) oy
    ++ [Ev.draw ox (-ey) bmp.width bmp.height true, Ev.present,
        Ev.delay edel]
  else [])

/-- The y-coordinate of the final frame drawn after the stepping loop:
`-(end_y - 64)` for a downward scroll, `-end_y` for an upward one. -/
def finalDrawY (step ey : Int) : Int := if step > 0 then -(ey - 64) else -ey

/-- The y-coordinates of the ON bitmap draws of a trace, in order. -/
def onDrawYs : List Ev → List Int
  | [] => []
  | Ev.draw _ y _ _ true :: rest => y :: onDrawYs rest
  | _ :: rest => onDrawYs rest

/-- C6: for every call with `stepPixels ≠ 0`, after the stepping loop the
trace always ends with exactly one final frame drawn at the resolved end
offset, a present, and an `enddelay` hold; and in the degenerate downward
case where the loop condition fails at entry (zero steps required), the whole
trace is exactly the initial frame followed by that final frame. -/
theorem scroll_final_frame :
    (∀ (idel edel sdel step : Int) (snap ao : Bool) (ox oy ey0 : Int)
        (bmp : Image), step ≠ 0 →
        ∃ pre, scrollTrace idel edel sdel step snap ao ox oy ey0 bmp
          = pre ++
            [Ev.draw ox (finalDrawY step (resolveEndY step ey0 bmp.height ao))
               bmp.width bmp.height true,
             Ev.present, Ev.delay (if edel < 0 then 500 else edel)]) ∧
    (∀ (idel edel sdel step : Int) (snap ao : Bool) (ox oy ey0 : Int)
        (bmp : Image), step > 0 →
        ¬ (0 + 64 - oy < resolveEndY step ey0 bmp.height ao) →
        scrollTrace idel edel sdel step snap ao ox oy ey0 bmp
          = [Ev.draw ox oy bmp.width bmp.height true, Ev.present,
             Ev.delay (if idel < 0 then 500 else idel),
             Ev.draw ox (-(resolveEndY step ey0 bmp.height ao - 64))
               bmp.width bmp.height true,
             Ev.present, Ev.delay (if edel < 0 then 500 else edel)]) := by
  constructor
  · intro idel edel sdel step snap ao ox oy ey0 bmp hs
    have h0 : step > 0 ∨ step < 0 := by omega
    rcases h0 with h1 | h1
    · refine ⟨Ev.draw ox oy bmp.width bmp.height true :: Ev.present ::
        Ev.delay (if idel < 0 then 500 else idel) ::
        downLoop (if sdel < 0 then 5 else sdel) step snap ox oy
          (resolveEndY step ey0 bmp.height ao) bmp
          ((resolveEndY step ey0 bmp.height ao - 64 + oy).toNat + 1) 0, ?_⟩
      simp [scrollTrace, finalDrawY, h1]
    · have h2 : ¬ step > 0 := by omega
      refine ⟨Ev.draw ox oy bmp.width bmp.height true :: Ev.present ::
        Ev.delay (if idel < 0 then 500 else idel) ::
        upLoop (if sdel < 0 then 5 else sdel) step snap ox
          (resolveEndY step ey0 bmp.height ao) bmp
          ((-(resolveEndY step ey0 bmp.height ao) - oy).toNat + 1) oy, ?_⟩
      simp [scrollTrace, finalDrawY, h1, h2]
  · intro idel edel sdel step snap ao ox oy ey0 bmp h1 h2
    have hl : downLoop (if sdel < 0 then 5 else sdel) step snap ox oy
        (resolveEndY step ey0 bmp.height ao) bmp
        ((resolveEndY step ey0 bmp.height ao - 64 + oy).toNat + 1) 0 = [] := by
      rw [downLoop]
      simp only [if_neg h2]
    simp [scrollTrace, h1, hl]

theorem scroll_final_frame_w :
    (∃ pre, scrollTrace 1 2 3 2 true false 0 0 0 ⟨64, 64⟩
        = pre ++ [Ev.draw 0 0 64 64 true, Ev.present, Ev.delay 2]) ∧
    scrollTrace 1 2 3 2 true false 0 0 0 ⟨64, 64⟩
      = [Ev.draw 0 0 64 64 true, Ev.present, Ev.delay 1,
         Ev.draw 0 0 64 64 true, Ev.present, Ev.delay 2] :=
  ⟨scroll_final_frame.1 1 2 3 2 true false 0 0 0 ⟨64, 64⟩ (by decide),
   scroll_final_frame.2 1 2 3 2 true false 0 0 0 ⟨64, 64⟩ (by decide)
     (by decide)⟩

/-- C7 counterexample: in the scenario (height 128, `stepPixels = 2`,
`endMarker = 0`, overflow disallowed, offsets zero) the stepping loop
performs 31 two-pixel steps, not 32: the loop's strict guard
`height + 64 - offset_y + scrollstep < end_y` refuses the step that would
land exactly on the resolved end offset, so the last 2 pixels are covered by
the post-loop final frame (or by two single-pixel steps when `snaptoend` is
false). -/
theorem scroll_scenario_cex :
    (onDrawYs (downLoop 5 2 true 0 0 (resolveEndY 2 0 128 false) ⟨128, 128⟩
        65 0)).length = 31 ∧
    (31 : Nat) ≠ 32 := by
  decide

/-- C7 (amended): for height 128, viewport 64, `stepPixels = 2`,
`endMarker = 0`, overflow disallowed, offsets zero, the resolved
`endY = 128`; with `snaptoend` the engine performs 31 two-pixel steps
(offsets 2, 4, …, 62) and then one final frame at pan offset 128 (a 2-pixel
jump); without `snaptoend` it performs 31 two-pixel steps, two one-pixel
steps, and then the final frame at pan offset 128 (redrawing the same
position). -/
theorem scroll_scenario_amended :
    resolveEndY 2 0 128 false = 128 ∧
    onDrawYs (scrollTrace 500 500 5 2 true false 0 0 0 ⟨128, 128⟩)
      = 0 :: (List.range 31).map (fun i => -(2 * ((i : Int) + 1))) ++ [-64] ∧
    onDrawYs (scrollTrace 500 500 5 2 false false 0 0 0 ⟨128, 128⟩)
      = 0 :: (List.range 31).map (fun i => -(2 * ((i : Int) + 1)))
          ++ [-63, -64, -64] := by
  decide

/-- C9 counterexample: a zero-sized bitmap is not normalized to any
recommended default — `drawVerticalScrollingBitmap` processes it as-is (and
without rejection): both frames of the resulting trace draw a width-0,
height-0 bitmap. -/
theorem zero_bitmap_not_normalized_cex :
    scrollTrace 500 500 5 1 true false 0 0 0 ⟨0, 0⟩
      = [Ev.draw 0 0 0 0 true, Ev.present, Ev.delay 500,
         Ev.draw 0 64 0 0 true, Ev.present, Ev.delay 500] ∧
    Ev.draw 0 0 0 0 true ∈ scrollTrace 500 500 5 1 true false 0 0 0 ⟨0, 0⟩ := by
  decide

/-- C9 (amended): each malformed sentinel parameter is individually
normalized to its documented recommended default and never causes rejection:
for every call — with all other parameters arbitrary, well-formed or not —
`textspeed ≤ 0` is replaced by 1, a negative `chardelay` by 10, a negative
`headerdelay` by 200, a negative CTC `timer` by 10000, and negative
`initialdelay` / `enddelay` / `scrolldelay` by 500, 500 and 5: the call
behaves exactly as the call with that one default substituted.  (A
zero-sized bitmap is not normalized; it is processed as-is.) -/
theorem defaults_normalized :
    (∀ (idel edel sdel step : Int) (snap ao : Bool) (ox oy ey0 : Int)
        (bmp : Image), idel < 0 →
        scrollTrace idel edel sdel step snap ao ox oy ey0 bmp
          = scrollTrace 500 edel sdel step snap ao ox oy ey0 bmp) ∧
    (∀ (idel edel sdel step : Int) (snap ao : Bool) (ox oy ey0 : Int)
        (bmp : Image), edel < 0 →
        scrollTrace idel edel sdel step snap ao ox oy ey0 bmp
          = scrollTrace idel 500 sdel step snap ao ox oy ey0 bmp) ∧
    (∀ (idel edel sdel step : Int) (snap ao : Bool) (ox oy ey0 : Int)
        (bmp : Image), sdel < 0 →
        scrollTrace idel edel sdel step snap ao ox oy ey0 bmp
          = scrollTrace idel edel 5 step snap ao ox oy ey0 bmp) ∧
    (∀ (ts : Nat) (cd hd : Int) (ob : Bool) (ht d : String), ts ≤ 0 →
        drawDialogText ts cd hd ob ht d = drawDialogText 1 cd hd ob ht d) ∧
    (∀ (ts : Nat) (cd hd : Int) (ob : Bool) (ht d : String), cd < 0 →
        drawDialogText ts cd hd ob ht d = drawDialogText ts 10 hd ob ht d) ∧
    (∀ (ts : Nat) (cd hd : Int) (ob : Bool) (ht d : String), hd < 0 →
        drawDialogText ts cd hd ob ht d = drawDialogText ts cd 200 ob ht d) ∧
    (∀ (ts : Nat) (cd hd tm : Int) (ti te ob : Bool) (ht d : String),
        ts ≤ 0 →
        drawTimedDialogText ts cd hd tm ti te ob ht d
          = drawTimedDialogText 1 cd hd tm ti te ob ht d) ∧
    (∀ (ts : Nat) (cd hd tm : Int) (ti te ob : Bool) (ht d : String),
        cd < 0 →
        drawTimedDialogText ts cd hd tm ti te ob ht d
          = drawTimedDialogText ts 10 hd tm ti te ob ht d) ∧
    (∀ (ts : Nat) (cd hd tm : Int) (ti te ob : Bool) (ht d : String),
        hd < 0 →
        drawTimedDialogText ts cd hd tm ti te ob ht d
          = drawTimedDialogText ts cd 200 tm ti te ob ht d) ∧
    (∀ (ts : Nat) (cd hd tm : Int) (ti te ob : Bool) (ht d : String),
        tm < 0 →
        drawTimedDialogText ts cd hd tm ti te ob ht d
          = drawTimedDialogText ts cd hd 10000 ti te ob ht d) := by
  refine ⟨?_, ?_, ?_, ?_, ?_, ?_, ?_, ?_, ?_, ?_⟩
  · intro idel edel sdel step snap ao ox oy ey0 bmp h1
    simp [scrollTrace, h1]
  · intro idel edel sdel step snap ao ox oy ey0 bmp h1
    simp [scrollTrace, h1]
  · intro idel edel sdel step snap ao ox oy ey0 bmp h1
    simp [scrollTrace, h1]
  · intro ts cd hd ob ht d h1
    have h0 : ts = 0 := Nat.le_zero.mp h1
    subst h0
    simp [drawDialogText]
  · intro ts cd hd ob ht d h1
    simp [drawDialogText, h1]
  · intro ts cd hd ob ht d h1
    simp [drawDialogText, h1]
  · intro ts cd hd tm ti te ob ht d h1
    have h0 : ts = 0 := Nat.le_zero.mp h1
    subst h0
    simp [drawTimedDialogText]
  · intro ts cd hd tm ti te ob ht d h1
    simp [drawTimedDialogText, h1]
  · intro ts cd hd tm ti te ob ht d h1
    simp [drawTimedDialogText, h1]
  · intro ts cd hd tm ti te ob ht d h1
    simp [drawTimedDialogText, h1]

theorem defaults_normalized_w :
    scrollTrace (-1) 2 3 1 true false 0 0 0 ⟨8, 8⟩
      = scrollTrace 500 2 3 1 true false 0 0 0 ⟨8, 8⟩ ∧
    scrollTrace 1 (-2) 3 1 true false 0 0 0 ⟨8, 8⟩
      = scrollTrace 1 500 3 1 true false 0 0 0 ⟨8, 8⟩ ∧
    scrollTrace 1 2 (-3) 1 true false 0 0 0 ⟨8, 8⟩
      = scrollTrace 1 2 5 1 true false 0 0 0 ⟨8, 8⟩ ∧
    drawDialogText 0 2 3 true "h" "ab" = drawDialogText 1 2 3 true "h" "ab" ∧
    drawDialogText 2 (-1) 3 true "h" "ab"
      = drawDialogText 2 10 3 true "h" "ab" ∧
    drawDialogText 2 3 (-1) true "h" "ab"
      = drawDialogText 2 3 200 true "h" "ab" ∧
    drawTimedDialogText 0 2 3 4 true true true "h" "ab"
      = drawTimedDialogText 1 2 3 4 true true true "h" "ab" ∧
    drawTimedDialogText 2 (-1) 3 4 true true true "h" "ab"
      = drawTimedDialogText 2 10 3 4 true true true "h" "ab" ∧
    drawTimedDialogText 2 3 (-1) 4 true true true "h" "ab"
      = drawTimedDialogText 2 3 200 4 true true true "h" "ab" ∧
    drawTimedDialogText 2 3 4 (-1) true true true "h" "ab"
      = drawTimedDialogText 2 3 4 10000 true true true "h" "ab" :=
  ⟨defaults_normalized.1 (-1) 2 3 1 true false 0 0 0 ⟨8, 8⟩ (by decide),
   defaults_normalized.2.1 1 (-2) 3 1 true false 0 0 0 ⟨8, 8⟩ (by decide),
   defaults_normalized.2.2.1 1 2 (-3) 1 true false 0 0 0 ⟨8, 8⟩ (by decide),
   defaults_normalized.2.2.2.1 0 2 3 true "h" "ab" (by decide),
   defaults_normalized.2.2.2.2.1 2 (-1) 3 true "h" "ab" (by decide),
   defaults_normalized.2.2.2.2.2.1 2 3 (-1) true "h" "ab" (by decide),
   defaults_normalized.2.2.2.2.2.2.1 0 2 3 4 true true true "h" "ab"
     (by decide),
   defaults_normalized.2.2.2.2.2.2.2.1 2 (-1) 3 4 true true true "h" "ab"
     (by decide),
   defaults_normalized.2.2.2.2.2.2.2.2.1 2 3 (-1) 4 true true true "h" "ab"
     (by decide),
   defaults_normalized.2.2.2.2.2.2.2.2.2 2 3 4 (-1) true true true "h" "ab"
     (by decide)⟩
